import Mathlib

/-!
Shallow embedding of `lib/set.js` from node-migrate: the migration `Set`
(registry of migrations, cursor position, load/save against the single
database record, and the `_migrate` slice computation and sequential drain).
-/

namespace NodeMigrate

/-- A JavaScript error value: a message plus the optional `code` property
that `Set.prototype.migrate` inspects with `'ENOENT' != err.code`. -/
structure JsError where
  message : String
  code : Option String
  deriving DecidableEq

/-- The two migration directions accepted by `Set.prototype.migrate`. -/
inductive Direction where
  | up
  | down
  deriving DecidableEq

abbrev Title := String

/-- A registered migration: its `title` and the outcome each direction's
asynchronous callback reports when invoked (`none` = success, `some e` =
it calls back with the error `e`).  The callbacks themselves are opaque
caller-supplied functions; only the reported outcome is observable to the
engine. -/
structure Migration where
  title : Title
  upRes : Option JsError
  downRes : Option JsError
  deriving DecidableEq

/-- `migration[direction](...)`: outcome reported by the direction's callback. -/
def stepResult (dir : Direction) (m : Migration) : Option JsError :=
  match dir with
  | .up => m.upRes
  | .down => m.downRes

/-- In-memory state of a `Set`: `this.migrations` and `this.pos`. -/
structure MSet where
  migrations : List Migration
  pos : Int
  deriving DecidableEq

/-- The single database row (`id=1`): the decode result of the stored
`migrations` JSON payload (`some titles` when `JSON.parse` succeeds,
`none` when it throws) together with the stored `pos`. -/
structure PersistedRecord where
  titles : Option (List Title)
  pos : Int
  deriving DecidableEq

/-- The persistence backend: at most one record with `id=1`. -/
structure Store where
  record : Option PersistedRecord
  deriving DecidableEq

/-- Events emitted by a `Set` during a run (`load`, `migration`, `complete`,
`save`, `error`). -/
inductive Event where
  | load
  | migration (title : Title) (dir : Direction)
  | complete
  | save
  | error (e : JsError)
  deriving DecidableEq

/-- The indexed scan loop inside `positionOfMigration`. -/
def posOfAux (filename : String) : List Migration → Int → Int
  | [], _ => -1
  | m :: rest, i => if m.title = filename then i else posOfAux filename rest (i + 1)

/-- `positionOfMigration(migrations, filename)`: index of the first migration
whose `title` equals `filename`, or `-1` when there is none. -/
def positionOfMigration (migrations : List Migration) (filename : String) : Int :=
  posOfAux filename migrations 0

/-- Clamp one bound of `Array.prototype.slice` as ECMAScript does:
a negative index counts from the end (floored at `0`), a non-negative one
is capped at the length. -/
def jsSliceBound (len : Nat) (i : Int) : Nat :=
  if i < 0 then ((len : Int) + i).toNat else min i.toNat len

/-- `xs.slice(start, stop)` of JavaScript arrays. -/
def jsSlice {α : Type} (xs : List α) (start stop : Int) : List α :=
  (xs.take (jsSliceBound xs.length stop)).drop (jsSliceBound xs.length start)

/-- The target bound used by `_migrate` when `migrationName` is falsy:
`this.migrations.length` for `up`, `0` for `down`. -/
def defaultTargetPos (s : MSet) (dir : Direction) : Int :=
  match dir with
  | .up => (s.migrations.length : Int)
  | .down => 0

/-- Target resolution in `_migrate`: `if (!migrationName)` takes the default
bound — in JavaScript both an absent argument and the empty string are
falsy — otherwise `positionOfMigration` is consulted and `-1` aborts the
process (`none` here). -/
def resolveTarget (s : MSet) (dir : Direction) (target : Option Title) : Option Int :=
  match target with
  | none => some (defaultTargetPos s dir)
  | some t =>
    if t = "" then some (defaultTargetPos s dir)
    else if positionOfMigration s.migrations t = -1 then none
    else some (positionOfMigration s.migrations t)

/-- The `switch (direction)` of `_migrate`: the slice of migrations to run
and the updated value of `this.pos` (the position is updated here, before
any migration of the slice executes). -/
def computeSlice (s : MSet) (dir : Direction) (migrationPos : Int) :
    List Migration × Int :=
  match dir with
  | .up =>
    let ms := jsSlice s.migrations s.pos (migrationPos + 1)
    (ms, s.pos + (ms.length : Int))
  | .down =>
    let ms := (jsSlice s.migrations migrationPos s.pos).reverse
    (ms, s.pos - (ms.length : Int))

/-- The recursive callback `next` of `_migrate`, run to completion on the
computed slice: the titles of the migrations actually invoked, in order,
plus the first reported error if any (`none` = the slice fully drained). -/
def drain (dir : Direction) : List Migration → List Title × Option JsError
  | [] => ([], none)
  | m :: rest =>
    match stepResult dir m with
    | some e => ([m.title], some e)
    | none =>
      let r := drain dir rest
      (m.title :: r.1, r.2)

/-- Result of one run: emitted events, final in-memory set, final store
content, and whether the process was terminated by `process.exit(1)`. -/
structure MigrateResult where
  events : List Event
  set : MSet
  store : Store
  exited : Bool
  deriving DecidableEq

/-- The row written by `Set.prototype.save`: `this.migrations` serialized
(of which only the titles survive `JSON.stringify`) and `this.pos`. -/
def savedRecord (s : MSet) : PersistedRecord :=
  { titles := some (s.migrations.map (fun m => m.title)), pos := s.pos }

/-- Tail of a run after the slice was computed: on a reported migration
error, emit `error` and stop (no save); on a fully drained slice, emit
`complete` and run `save`, whose `db.query` callback `disconnectDb` emits
`error` on a failed write and `save` on a successful one. -/
def finishRun (saveErr : Option JsError) (store : Store) (s2 : MSet)
    (dir : Direction) (tr : List Title) (res : Option JsError) : MigrateResult :=
  match res with
  | some e =>
    { events := tr.map (fun t => Event.migration t dir) ++ [Event.error e],
      set := s2, store := store, exited := false }
  | none =>
    match saveErr with
    | some e =>
      { events := tr.map (fun t => Event.migration t dir) ++ [Event.complete, Event.error e],
        set := s2, store := store, exited := false }
    | none =>
      { events := tr.map (fun t => Event.migration t dir) ++ [Event.complete, Event.save],
        set := s2, store := { record := some (savedRecord s2) }, exited := false }

/-- `Set.prototype._migrate(direction, migrationName)`: resolve the target
(`process.exit(1)` when an explicit name is not found), compute the slice,
update `this.pos`, drain the slice, and finish with `error` or
`complete`/`save`.  `saveErr` is the outcome the database reports for the
final write, should one be attempted. -/
def setMigrate (saveErr : Option JsError) (store : Store) (s : MSet)
    (dir : Direction) (target : Option Title) : MigrateResult :=
  match resolveTarget s dir target with
  | none => { events := [], set := s, store := store, exited := true }
  | some migrationPos =>
    finishRun saveErr store
      { s with pos := (computeSlice s dir migrationPos).2 }
      dir
      (drain dir (computeSlice s dir migrationPos).1).1
      (drain dir (computeSlice s dir migrationPos).1).2

/-- The `SyntaxError` thrown by `JSON.parse` on an undecodable payload; it
carries no `code` property. -/
def jsonSyntaxError : JsError := { message := "SyntaxError", code := none }

/-- The query callback inside `Set.prototype.load`: a query error is passed
through, a missing row falls back to `{ migrations: '[]', pos: 0 }`, and an
undecodable `migrations` payload surfaces the `JSON.parse` exception. -/
def loadFromDatabase (queryErr : Option JsError) (record : Option PersistedRecord) :
    Except JsError (List Title × Int) :=
  match queryErr with
  | some e => .error e
  | none =>
    match record with
    | none => .ok ([], 0)
    | some r =>
      match r.titles with
      | none => .error jsonSyntaxError
      | some ts => .ok (ts, r.pos)

/-- External circumstances of one run: whether connecting fails, whether the
load query fails, whether the save query fails, and the store content. -/
structure World where
  connErr : Option JsError
  queryErr : Option JsError
  saveErr : Option JsError
  store : Store
  deriving DecidableEq

def enoent : String := "ENOENT"

/-- Prefix the `load` event emitted at the top of `Set.prototype.load`. -/
def withLoadEvent (r : MigrateResult) : MigrateResult :=
  { r with events := Event.load :: r.events }

/-- `Set.prototype.migrate(direction, migrationName)`: emit `load`, acquire
the connection (a connection error is emitted and stops the run), run the
load query; a load error whose `code` is not `'ENOENT'` is emitted and
stops the run, an `'ENOENT'` error falls through with `this.pos`
untouched, and a loaded record sets `this.pos = obj.pos`; then `_migrate`
runs. -/
def runMigrate (w : World) (s : MSet) (dir : Direction) (target : Option Title) :
    MigrateResult :=
  match w.connErr with
  | some e => { events := [Event.load, Event.error e], set := s, store := w.store, exited := false }
  | none =>
    match loadFromDatabase w.queryErr w.store.record with
    | .error e =>
      if e.code = some enoent then
        withLoadEvent (setMigrate w.saveErr w.store s dir target)
      else
        { events := [Event.load, Event.error e], set := s, store := w.store, exited := false }
    | .ok lp =>
      withLoadEvent (setMigrate w.saveErr w.store { s with pos := lp.2 } dir target)

/-- `Set.prototype.up(migrationName)` = `this.migrate('up', migrationName)`. -/
def setUp (w : World) (s : MSet) (target : Option Title) : MigrateResult :=
  runMigrate w s Direction.up target

/-- `Set.prototype.down(migrationName)` = `this.migrate('down', migrationName)`. -/
def setDown (w : World) (s : MSet) (target : Option Title) : MigrateResult :=
  runMigrate w s Direction.down target

/-- Titles of the migrations a run actually executed, in execution order:
the payloads of its `migration` events. -/
def migrationTitles (evs : List Event) : List Title :=
  evs.filterMap (fun e => match e with | Event.migration t _ => some t | _ => none)

/-! Concrete fixtures used by witnesses and counterexamples. -/

def m001 : Migration := { title := "001", upRes := none, downRes := none }

def m002 : Migration := { title := "002", upRes := none, downRes := none }

def m003 : Migration := { title := "003", upRes := none, downRes := none }

def boomErr : JsError := { message := "boom", code := none }

def mBad : Migration := { title := "bad", upRes := some boomErr, downRes := some boomErr }

def emptyTitle : Title := ""

def mEmptyTitle : Migration := { title := "", upRes := none, downRes := none }

def mB : Migration := { title := "b", upRes := none, downRes := none }

def missingTitle : Title := "nonexistent"

def emptyStore : Store := { record := none }

def okWorld : World := { connErr := none, queryErr := none, saveErr := none, store := emptyStore }

/-- A world whose stored record holds position `p` and an empty title list. -/
def worldAtPos (p : Int) : World :=
  { connErr := none, queryErr := none, saveErr := none,
    store := { record := some { titles := some [], pos := p } } }

def s3 : MSet := { migrations := [m001, m002, m003], pos := 0 }

def sFail : MSet := { migrations := [m001, mBad, m003], pos := 0 }

def sOne : MSet := { migrations := [m001], pos := 0 }

def sEB : MSet := { migrations := [mEmptyTitle, mB], pos := 0 }

def sBE : MSet := { migrations := [mB, mEmptyTitle], pos := 0 }

def connErrJs : JsError := { message := "connect ECONNREFUSED", code := none }

def wConnFail : World :=
  { connErr := some connErrJs, queryErr := none, saveErr := none, store := emptyStore }

/-! ### Lemmas about the embedded operations -/

theorem posOfAux_bounds (f : String) (l : List Migration) :
    ∀ j : Int, posOfAux f l j = -1 ∨
      (j ≤ posOfAux f l j ∧ posOfAux f l j < j + l.length) := by
  induction l with
  | nil => intro j; exact Or.inl rfl
  | cons m rest ih =>
    intro j
    by_cases h : m.title = f
    · refine Or.inr ?_
      simp only [posOfAux, if_pos h, List.length_cons]
      push_cast
      omega
    · rcases ih (j + 1) with h1 | h1
      · exact Or.inl (by simp only [posOfAux, if_neg h]; exact h1)
      · refine Or.inr ?_
        simp only [posOfAux, if_neg h, List.length_cons]
        push_cast
        omega

theorem positionOfMigration_lt_length (l : List Migration) (f : String) (i : Nat)
    (h : positionOfMigration l f = (i : Int)) : i < l.length := by
  rcases posOfAux_bounds f l 0 with h1 | ⟨_, h2⟩
  · rw [positionOfMigration] at h
    rw [h] at h1
    omega
  · rw [positionOfMigration] at h
    rw [h] at h2
    omega

theorem jsSliceBound_natCast (len a : Nat) : jsSliceBound len (a : Int) = min a len := by
  unfold jsSliceBound
  rw [if_neg (by omega), Int.toNat_natCast]

theorem jsSlice_natCast {α : Type} (xs : List α) (a b : Nat) :
    jsSlice xs (a : Int) (b : Int) = (xs.take b).drop a := by
  unfold jsSlice
  rw [jsSliceBound_natCast, jsSliceBound_natCast]
  have ht : xs.take (min b xs.length) = xs.take b := by
    rcases le_total b xs.length with h | h
    · rw [min_eq_left h]
    · rw [min_eq_right h, List.take_length, List.take_of_length_le h]
  rw [ht]
  rcases le_total a xs.length with h | h
  · rw [min_eq_left h]
  · have hlen : (xs.take b).length ≤ xs.length := by
      rw [List.length_take]; exact min_le_right _ _
    rw [min_eq_right h, List.drop_eq_nil_of_le hlen,
      List.drop_eq_nil_of_le (le_trans hlen h)]

theorem drain_ok (dir : Direction) (l : List Migration)
    (h : ∀ m ∈ l, stepResult dir m = none) :
    drain dir l = (l.map (fun m => m.title), none) := by
  induction l with
  | nil => rfl
  | cons m rest ih =>
    have hm : stepResult dir m = none := h m (List.mem_cons_self m rest)
    have hr := ih (fun x hx => h x (List.mem_cons_of_mem m hx))
    simp [drain, hm, hr]

theorem drain_fail (dir : Direction) (l : List Migration) (k : Nat) (mf : Migration)
    (e : JsError) (hmf : l[k]? = some mf) (hf : stepResult dir mf = some e)
    (hprev : ∀ m ∈ l.take k, stepResult dir m = none) :
    drain dir l = ((l.take (k + 1)).map (fun m => m.title), some e) := by
  induction l generalizing k with
  | nil => simp at hmf
  | cons m rest ih =>
    cases k with
    | zero =>
      simp only [List.getElem?_cons_zero, Option.some.injEq] at hmf
      subst hmf
      simp [drain, hf]
    | succ k =>
      have hm : stepResult dir m = none := by
        refine hprev m ?_
        rw [List.take_succ_cons]
        exact List.mem_cons_self m _
      have hmf2 : rest[k]? = some mf := by
        rw [List.getElem?_cons_succ] at hmf
        exact hmf
      have hprev2 : ∀ x ∈ rest.take k, stepResult dir x = none := by
        intro x hx
        refine hprev x ?_
        rw [List.take_succ_cons]
        exact List.mem_cons_of_mem m hx
      have hrest := ih k hmf2 hprev2
      simp [drain, hm, hrest, List.take_succ_cons]

theorem migrationTitles_map_migration (tr : List Title) (dir : Direction) :
    migrationTitles (tr.map (fun t => Event.migration t dir)) = tr := by
  induction tr with
  | nil => rfl
  | cons t rest ih => simp only [migrationTitles, List.filterMap] at ih ⊢; simp [ih]

theorem migrationTitles_append (a b : List Event) :
    migrationTitles (a ++ b) = migrationTitles a ++ migrationTitles b :=
  List.filterMap_append a b _

theorem migrationTitles_finishRun (saveErr : Option JsError) (store : Store) (s2 : MSet)
    (dir : Direction) (tr : List Title) (res : Option JsError) :
    migrationTitles (finishRun saveErr store s2 dir tr res).events = tr := by
  cases res with
  | some e =>
    show migrationTitles (tr.map (fun t => Event.migration t dir) ++ [Event.error e]) = tr
    rw [migrationTitles_append, migrationTitles_map_migration]
    simp [migrationTitles]
  | none =>
    cases saveErr with
    | some e =>
      show migrationTitles
          (tr.map (fun t => Event.migration t dir) ++ [Event.complete, Event.error e]) = tr
      rw [migrationTitles_append, migrationTitles_map_migration]
      simp [migrationTitles]
    | none =>
      show migrationTitles
          (tr.map (fun t => Event.migration t dir) ++ [Event.complete, Event.save]) = tr
      rw [migrationTitles_append, migrationTitles_map_migration]
      simp [migrationTitles]

theorem finishRun_set (saveErr : Option JsError) (store : Store) (s2 : MSet)
    (dir : Direction) (tr : List Title) (res : Option JsError) :
    (finishRun saveErr store s2 dir tr res).set = s2 := by
  cases res <;> cases saveErr <;> rfl

theorem migrationTitles_withLoadEvent (r : MigrateResult) :
    migrationTitles (withLoadEvent r).events = migrationTitles r.events := by
  simp [withLoadEvent, migrationTitles]

theorem withLoadEvent_set (r : MigrateResult) : (withLoadEvent r).set = r.set := rfl

theorem withLoadEvent_store (r : MigrateResult) : (withLoadEvent r).store = r.store := rfl

theorem setMigrate_resolved (saveErr : Option JsError) (store : Store) (s : MSet)
    (dir : Direction) (target : Option Title) (mp : Int)
    (h : resolveTarget s dir target = some mp) :
    setMigrate saveErr store s dir target =
      finishRun saveErr store { s with pos := (computeSlice s dir mp).2 } dir
        (drain dir (computeSlice s dir mp).1).1
        (drain dir (computeSlice s dir mp).1).2 := by
  unfold setMigrate
  rw [h]

theorem setMigrate_unresolved (saveErr : Option JsError) (store : Store) (s : MSet)
    (dir : Direction) (target : Option Title)
    (h : resolveTarget s dir target = none) :
    setMigrate saveErr store s dir target =
      { events := [], set := s, store := store, exited := true } := by
  unfold setMigrate
  rw [h]

theorem computeSlice_up (s : MSet) (mp : Int) :
    computeSlice s Direction.up mp =
      (jsSlice s.migrations s.pos (mp + 1),
        s.pos + ((jsSlice s.migrations s.pos (mp + 1)).length : Int)) := rfl

theorem computeSlice_down (s : MSet) (mp : Int) :
    computeSlice s Direction.down mp =
      ((jsSlice s.migrations mp s.pos).reverse,
        s.pos - (((jsSlice s.migrations mp s.pos).reverse).length : Int)) := rfl

theorem runMigrate_ok (w : World) (s : MSet) (dir : Direction) (target : Option Title)
    (ts : List Title) (p : Int)
    (hc : w.connErr = none)
    (hl : loadFromDatabase w.queryErr w.store.record = Except.ok (ts, p)) :
    runMigrate w s dir target =
      withLoadEvent (setMigrate w.saveErr w.store { s with pos := p } dir target) := by
  unfold runMigrate
  rw [hc, hl]

/-! ### Claims -/

/-- Claim C1: for every registered sequence of `N` migrations and starting
position `p` with `0 ≤ p ≤ N`, `up()` with no target executes exactly the
`N - p` migrations at indices `p` through `N-1`, in registration order, and
leaves the in-memory position equal to `N`. -/
theorem up_no_target_runs_all (w : World) (s : MSet) (ts : List Title) (p : Nat)
    (hc : w.connErr = none) (hq : w.queryErr = none)
    (hr : w.store.record = some { titles := some ts, pos := (p : Int) })
    (hp : p ≤ s.migrations.length)
    (hok : ∀ m ∈ s.migrations, m.upRes = none) :
    migrationTitles (setUp w s none).events = (s.migrations.drop p).map (fun m => m.title) ∧
    (migrationTitles (setUp w s none).events).length = s.migrations.length - p ∧
    (setUp w s none).set.pos = (s.migrations.length : Int) := by
  have hl : loadFromDatabase w.queryErr w.store.record = Except.ok (ts, (p : Int)) := by
    rw [hq, hr]; rfl
  have hrun : setUp w s none =
      withLoadEvent (setMigrate w.saveErr w.store { s with pos := (p : Int) } Direction.up none) :=
    runMigrate_ok w s Direction.up none ts (p : Int) hc hl
  have hjs : jsSlice s.migrations (p : Int) ((s.migrations.length : Int) + 1)
      = s.migrations.drop p := by
    rw [show ((s.migrations.length : Int) + 1) = ((s.migrations.length + 1 : Nat) : Int) by
      omega]
    rw [jsSlice_natCast, List.take_of_length_le (by omega)]
  have hdr : drain Direction.up (s.migrations.drop p)
      = ((s.migrations.drop p).map (fun m => m.title), none) :=
    drain_ok Direction.up _ (fun m hm => hok m (List.mem_of_mem_drop hm))
  have hres : resolveTarget { s with pos := (p : Int) } Direction.up none
      = some ((s.migrations.length : Int)) := rfl
  rw [hrun, setMigrate_resolved w.saveErr w.store _ Direction.up none _ hres, computeSlice_up]
  dsimp only
  rw [hjs, hdr]
  refine ⟨?_, ?_, ?_⟩
  · rw [migrationTitles_withLoadEvent, migrationTitles_finishRun]
  · rw [migrationTitles_withLoadEvent, migrationTitles_finishRun]
    rw [List.length_map, List.length_drop]
  · rw [withLoadEvent_set, finishRun_set]
    dsimp only
    rw [List.length_drop]
    omega

/-- Witness for C1 at the concrete scenario `["001","002","003"]`,
starting position `1`. -/
theorem up_no_target_runs_all_witness :
    migrationTitles (setUp (worldAtPos 1) s3 none).events
        = (s3.migrations.drop 1).map (fun m => m.title) ∧
      (migrationTitles (setUp (worldAtPos 1) s3 none).events).length
        = s3.migrations.length - 1 ∧
      (setUp (worldAtPos 1) s3 none).set.pos = (s3.migrations.length : Int) :=
  up_no_target_runs_all (worldAtPos 1) s3 [] 1 rfl rfl (by decide) (by decide) (by decide)

/-- Claim C2: for every registered sequence and starting position `p` with
`0 ≤ p ≤ length`, `down()` with no target executes exactly the `p` migrations
at indices `p-1` down to `0`, in reverse registration order, and leaves the
in-memory position equal to `0`. -/
theorem down_no_target_runs_all (w : World) (s : MSet) (ts : List Title) (p : Nat)
    (hc : w.connErr = none) (hq : w.queryErr = none)
    (hr : w.store.record = some { titles := some ts, pos := (p : Int) })
    (hp : p ≤ s.migrations.length)
    (hok : ∀ m ∈ s.migrations, m.downRes = none) :
    migrationTitles (setDown w s none).events
        = ((s.migrations.take p).map (fun m => m.title)).reverse ∧
      (migrationTitles (setDown w s none).events).length = p ∧
      (setDown w s none).set.pos = 0 := by
  have hl : loadFromDatabase w.queryErr w.store.record = Except.ok (ts, (p : Int)) := by
    rw [hq, hr]; rfl
  have hrun : setDown w s none =
      withLoadEvent
        (setMigrate w.saveErr w.store { s with pos := (p : Int) } Direction.down none) :=
    runMigrate_ok w s Direction.down none ts (p : Int) hc hl
  have hjs : jsSlice s.migrations (0 : Int) ((p : Nat) : Int) = s.migrations.take p := by
    have h := jsSlice_natCast s.migrations 0 p
    simpa using h
  have hdr : drain Direction.down ((s.migrations.take p).reverse)
      = (((s.migrations.take p).reverse).map (fun m => m.title), none) :=
    drain_ok Direction.down _
      (fun m hm => hok m (List.mem_of_mem_take (List.mem_reverse.mp hm)))
  have hres : resolveTarget { s with pos := (p : Int) } Direction.down none
      = some 0 := rfl
  rw [hrun, setMigrate_resolved w.saveErr w.store _ Direction.down none _ hres,
    computeSlice_down]
  dsimp only
  rw [hjs, hdr]
  refine ⟨?_, ?_, ?_⟩
  · rw [migrationTitles_withLoadEvent, migrationTitles_finishRun, List.map_reverse]
  · rw [migrationTitles_withLoadEvent, migrationTitles_finishRun]
    rw [List.length_map, List.length_reverse, List.length_take]
    exact min_eq_left hp
  · rw [withLoadEvent_set, finishRun_set]
    dsimp only
    rw [List.length_reverse, List.length_take, min_eq_left hp]
    omega

/-- Witness for C2 at the concrete scenario `["001","002","003"]`,
starting position `2`. -/
theorem down_no_target_runs_all_witness :
    migrationTitles (setDown (worldAtPos 2) s3 none).events
        = ((s3.migrations.take 2).map (fun m => m.title)).reverse ∧
      (migrationTitles (setDown (worldAtPos 2) s3 none).events).length = 2 ∧
      (setDown (worldAtPos 2) s3 none).set.pos = 0 :=
  down_no_target_runs_all (worldAtPos 2) s3 [] 2 rfl rfl (by decide) (by decide) (by decide)

/-- Claim C3 (amended: the target title must be non-empty, because
JavaScript's `if (!migrationName)` treats the empty string like an absent
target): for every starting position `p` and non-empty target title
resolving to index `i ≥ p`, `up(target)` executes exactly the migrations at
indices `p` through `i` inclusive, in registration order, and leaves the
in-memory position equal to `i + 1`. -/
theorem targeted_up_runs_range (w : World) (s : MSet) (ts : List Title) (t : Title)
    (p i : Nat)
    (hc : w.connErr = none) (hq : w.queryErr = none)
    (hr : w.store.record = some { titles := some ts, pos := (p : Int) })
    (ht : t ≠ "")
    (hi : positionOfMigration s.migrations t = (i : Int))
    (hpi : p ≤ i)
    (hok : ∀ m ∈ s.migrations, m.upRes = none) :
    migrationTitles (setUp w s (some t)).events
        = ((s.migrations.take (i + 1)).drop p).map (fun m => m.title) ∧
      (setUp w s (some t)).set.pos = (i : Int) + 1 := by
  have hiN : i < s.migrations.length := positionOfMigration_lt_length _ _ _ hi
  have hl : loadFromDatabase w.queryErr w.store.record = Except.ok (ts, (p : Int)) := by
    rw [hq, hr]; rfl
  have hrun : setUp w s (some t) =
      withLoadEvent
        (setMigrate w.saveErr w.store { s with pos := (p : Int) } Direction.up (some t)) :=
    runMigrate_ok w s Direction.up (some t) ts (p : Int) hc hl
  have hres : resolveTarget { s with pos := (p : Int) } Direction.up (some t)
      = some ((i : Nat) : Int) := by
    simp only [resolveTarget]
    rw [if_neg ht]
    rw [hi, if_neg (by omega : ¬((i : Int) = -1))]
  have hjs : jsSlice s.migrations ((p : Nat) : Int) (((i : Nat) : Int) + 1)
      = (s.migrations.take (i + 1)).drop p := by
    rw [show (((i : Nat) : Int) + 1) = (((i + 1 : Nat)) : Int) by omega]
    exact jsSlice_natCast s.migrations p (i + 1)
  have hdr : drain Direction.up ((s.migrations.take (i + 1)).drop p)
      = (((s.migrations.take (i + 1)).drop p).map (fun m => m.title), none) :=
    drain_ok Direction.up _
      (fun m hm => hok m (List.mem_of_mem_take (List.mem_of_mem_drop hm)))
  rw [hrun, setMigrate_resolved w.saveErr w.store _ Direction.up (some t) _ hres,
    computeSlice_up]
  dsimp only
  rw [hjs, hdr]
  refine ⟨?_, ?_⟩
  · rw [migrationTitles_withLoadEvent, migrationTitles_finishRun]
  · rw [withLoadEvent_set, finishRun_set]
    dsimp only
    rw [List.length_drop, List.length_take, min_eq_left (by omega)]
    omega

/-- Counterexample to C3 as stated: with migrations titled `""` and `"b"`
and position `0`, the empty title resolves to index `0 ≥ 0` via registry
lookup, yet `up("")` runs both migrations and leaves position `2`, because
`if (!migrationName)` treats `""` as an absent target. -/
theorem targeted_up_runs_range_cex :
    positionOfMigration sEB.migrations emptyTitle = 0 ∧
    ¬ (migrationTitles (setUp okWorld sEB (some emptyTitle)).events
          = ((sEB.migrations.take 1).drop 0).map (fun m => m.title) ∧
        (setUp okWorld sEB (some emptyTitle)).set.pos = (0 : Int) + 1) := by
  decide

/-- Witness for the amended C3: target `"002"` from position `1`. -/
theorem targeted_up_runs_range_witness :
    migrationTitles (setUp (worldAtPos 1) s3 (some m002.title)).events
        = ((s3.migrations.take 2).drop 1).map (fun m => m.title) ∧
      (setUp (worldAtPos 1) s3 (some m002.title)).set.pos = (1 : Int) + 1 :=
  targeted_up_runs_range (worldAtPos 1) s3 [] m002.title 1 1 rfl rfl (by decide)
    (by decide) (by decide) (by decide) (by decide)

/-- Claim C4 (amended: the target title must be non-empty, because
JavaScript's `if (!migrationName)` treats the empty string like an absent
target): for every starting position `p` and non-empty target title
resolving to index `i ≤ p`, `down(target)` executes exactly the migrations
at indices `p-1` down to `i`, in reverse registration order, and leaves the
in-memory position equal to `i`. -/
theorem targeted_down_runs_range (w : World) (s : MSet) (ts : List Title) (t : Title)
    (p i : Nat)
    (hc : w.connErr = none) (hq : w.queryErr = none)
    (hr : w.store.record = some { titles := some ts, pos := (p : Int) })
    (ht : t ≠ "")
    (hi : positionOfMigration s.migrations t = (i : Int))
    (hip : i ≤ p) (hpN : p ≤ s.migrations.length)
    (hok : ∀ m ∈ s.migrations, m.downRes = none) :
    migrationTitles (setDown w s (some t)).events
        = (((s.migrations.take p).drop i).map (fun m => m.title)).reverse ∧
      (setDown w s (some t)).set.pos = (i : Int) := by
  have hl : loadFromDatabase w.queryErr w.store.record = Except.ok (ts, (p : Int)) := by
    rw [hq, hr]; rfl
  have hrun : setDown w s (some t) =
      withLoadEvent
        (setMigrate w.saveErr w.store { s with pos := (p : Int) } Direction.down (some t)) :=
    runMigrate_ok w s Direction.down (some t) ts (p : Int) hc hl
  have hres : resolveTarget { s with pos := (p : Int) } Direction.down (some t)
      = some ((i : Nat) : Int) := by
    simp only [resolveTarget]
    rw [if_neg ht]
    rw [hi, if_neg (by omega : ¬((i : Int) = -1))]
  have hjs : jsSlice s.migrations ((i : Nat) : Int) ((p : Nat) : Int)
      = (s.migrations.take p).drop i :=
    jsSlice_natCast s.migrations i p
  have hdr : drain Direction.down (((s.migrations.take p).drop i).reverse)
      = ((((s.migrations.take p).drop i).reverse).map (fun m => m.title), none) :=
    drain_ok Direction.down _
      (fun m hm =>
        hok m (List.mem_of_mem_take (List.mem_of_mem_drop (List.mem_reverse.mp hm))))
  rw [hrun, setMigrate_resolved w.saveErr w.store _ Direction.down (some t) _ hres,
    computeSlice_down]
  dsimp only
  rw [hjs, hdr]
  refine ⟨?_, ?_⟩
  · rw [migrationTitles_withLoadEvent, migrationTitles_finishRun, List.map_reverse]
  · rw [withLoadEvent_set, finishRun_set]
    dsimp only
    rw [List.length_reverse, List.length_drop, List.length_take, min_eq_left hpN]
    omega

/-- Counterexample to C4 as stated: with migrations titled `"b"` and `""`
and position `2`, the empty title resolves to index `1 ≤ 2` via registry
lookup, yet `down("")` runs both migrations in reverse and leaves position
`0`, because `if (!migrationName)` treats `""` as an absent target. -/
theorem targeted_down_runs_range_cex :
    positionOfMigration sBE.migrations emptyTitle = 1 ∧
    ¬ (migrationTitles (setDown (worldAtPos 2) sBE (some emptyTitle)).events
          = (((sBE.migrations.take 2).drop 1).map (fun m => m.title)).reverse ∧
        (setDown (worldAtPos 2) sBE (some emptyTitle)).set.pos = (1 : Int)) := by
  decide

/-- Witness for the amended C4: target `"002"` from position `3`. -/
theorem targeted_down_runs_range_witness :
    migrationTitles (setDown (worldAtPos 3) s3 (some m002.title)).events
        = (((s3.migrations.take 3).drop 1).map (fun m => m.title)).reverse ∧
      (setDown (worldAtPos 3) s3 (some m002.title)).set.pos = (1 : Int) :=
  targeted_down_runs_range (worldAtPos 3) s3 [] m002.title 3 1 rfl rfl (by decide)
    (by decide) (by decide) (by decide) (by decide) (by decide)

/-- Claim C5: if the migration at slice index `k` reports failure, the run
invokes exactly the slice entries at indices `0` through `k`, each once, and
then surfaces the failure as an `error` event — no entry at an index greater
than `k` is ever invoked and nothing is retried. -/
theorem halt_on_first_failure (saveErr : Option JsError) (store : Store) (s : MSet)
    (dir : Direction) (target : Option Title) (mp : Int) (k : Nat) (mf : Migration)
    (e : JsError)
    (hres : resolveTarget s dir target = some mp)
    (hmf : (computeSlice s dir mp).1[k]? = some mf)
    (hf : stepResult dir mf = some e)
    (hprev : ∀ m ∈ (computeSlice s dir mp).1.take k, stepResult dir m = none) :
    (setMigrate saveErr store s dir target).events
      = (((computeSlice s dir mp).1.take (k + 1)).map (fun m => m.title)).map
          (fun t => Event.migration t dir) ++ [Event.error e] := by
  have hdr := drain_fail dir _ k mf e hmf hf hprev
  rw [setMigrate_resolved saveErr store s dir target mp hres, hdr]
  rfl

/-- Witness for C5: middle migration of `["001","bad","003"]` fails going
up; only `"001"` and `"bad"` are invoked, then `error`. -/
theorem halt_on_first_failure_witness :
    (setMigrate none emptyStore sFail Direction.up none).events
      = (((computeSlice sFail Direction.up 3).1.take 2).map (fun m => m.title)).map
          (fun t => Event.migration t Direction.up) ++ [Event.error boomErr] :=
  halt_on_first_failure none emptyStore sFail Direction.up none 3 1 mBad boomErr
    (by decide) (by decide) (by decide) (by decide)

/-- Claim C6 (amended: the explicit target title must be non-empty, because
JavaScript's `if (!migrationName)` treats the empty string like an absent
target): a run given an explicit non-empty target title that is not present
in the registry executes zero migrations and leaves the persisted state
(titles and position) unchanged. -/
theorem unresolved_target_noop (w : World) (s : MSet) (dir : Direction) (t : Title)
    (ht : t ≠ "") (h : positionOfMigration s.migrations t = -1) :
    migrationTitles (runMigrate w s dir (some t)).events = [] ∧
    (runMigrate w s dir (some t)).store = w.store := by
  have hres : ∀ s' : MSet, s'.migrations = s.migrations →
      resolveTarget s' dir (some t) = none := by
    intro s' hs'
    simp only [resolveTarget]
    rw [if_neg ht, hs', h]
    simp
  unfold runMigrate
  rcases hcw : w.connErr with _ | e
  · dsimp only
    rcases hlw : loadFromDatabase w.queryErr w.store.record with e | lp
    · dsimp only
      by_cases hcode : e.code = some enoent
      · rw [if_pos hcode, setMigrate_unresolved _ _ _ _ _ (hres s rfl)]
        exact ⟨by simp [withLoadEvent, migrationTitles], rfl⟩
      · rw [if_neg hcode]
        exact ⟨by simp [migrationTitles], rfl⟩
    · dsimp only
      rw [setMigrate_unresolved _ _ _ _ _ (hres { s with pos := lp.2 } rfl)]
      exact ⟨by simp [withLoadEvent, migrationTitles], rfl⟩
  · dsimp only
    exact ⟨by simp [migrationTitles], rfl⟩

/-- Counterexample to C6 as stated: the registry `["001"]` does not contain
the title `""`, yet `up("")` executes `"001"` and overwrites the persisted
state, because `if (!migrationName)` treats `""` as an absent target. -/
theorem unresolved_target_noop_cex :
    positionOfMigration sOne.migrations emptyTitle = -1 ∧
    ¬ (migrationTitles (runMigrate okWorld sOne Direction.up (some emptyTitle)).events
          = [] ∧
        (runMigrate okWorld sOne Direction.up (some emptyTitle)).store
          = okWorld.store) := by
  decide

/-- Witness for the amended C6: `up("nonexistent")` on registry `["001"]`. -/
theorem unresolved_target_noop_witness :
    migrationTitles (runMigrate okWorld sOne Direction.up (some missingTitle)).events = [] ∧
    (runMigrate okWorld sOne Direction.up (some missingTitle)).store = okWorld.store :=
  unresolved_target_noop okWorld sOne Direction.up missingTitle (by decide) (by decide)

theorem jsSliceBound_le (len : Nat) (i : Int) : jsSliceBound len i ≤ len := by
  unfold jsSliceBound
  split
  · omega
  · exact min_le_right _ _

theorem jsSliceBound_of_nonneg_le (len : Nat) (i : Int) (h0 : 0 ≤ i)
    (h1 : i ≤ (len : Int)) : jsSliceBound len i = i.toNat := by
  unfold jsSliceBound
  rw [if_neg (by omega)]
  exact min_eq_left (by omega)

theorem jsSlice_length {α : Type} (xs : List α) (a b : Int) :
    (jsSlice xs a b).length
      = min (jsSliceBound xs.length b) xs.length - jsSliceBound xs.length a := by
  unfold jsSlice
  rw [List.length_drop, List.length_take]

/-- Counterexample to C7 as stated: an unresolved explicit target is a
fatal condition, but the code terminates the run by `process.exit(1)`
without emitting the `error` event — the event trace of such a run is just
`[load]`. -/
theorem fatal_conditions_surface_cex :
    (runMigrate okWorld sOne Direction.up (some missingTitle)).exited = true ∧
    (runMigrate okWorld sOne Direction.up (some missingTitle)).events = [Event.load] := by
  decide

/-- Claim C7 (amended: an unresolved target is carved out): connection
failures, state-decode failures and migration step failures are each
surfaced through the single `error` signal and terminate the run without a
retry; an unresolved non-empty explicit target instead aborts the process
immediately via `process.exit(1)`, loudly but without the `error` signal
and without executing anything. -/
theorem fatal_conditions_surface (w : World) (s : MSet) (dir : Direction) (t : Title) :
    (∀ e, w.connErr = some e →
      (runMigrate w s dir (some t)).events = [Event.load, Event.error e]) ∧
    (∀ r, w.connErr = none → w.queryErr = none → w.store.record = some r →
      r.titles = none →
      (runMigrate w s dir (some t)).events = [Event.load, Event.error jsonSyntaxError]) ∧
    (∀ saveErr store mp k mf e, resolveTarget s dir (some t) = some mp →
      (computeSlice s dir mp).1[k]? = some mf → stepResult dir mf = some e →
      (∀ m ∈ (computeSlice s dir mp).1.take k, stepResult dir m = none) →
      Event.error e ∈ (setMigrate saveErr store s dir (some t)).events) ∧
    (∀ saveErr store, t ≠ "" → positionOfMigration s.migrations t = -1 →
      (setMigrate saveErr store s dir (some t)).exited = true ∧
      (setMigrate saveErr store s dir (some t)).events = []) := by
  refine ⟨?_, ?_, ?_, ?_⟩
  · intro e hce
    unfold runMigrate
    rw [hce]
  · intro r hc hq hrec htitles
    have hl : loadFromDatabase w.queryErr w.store.record
        = Except.error jsonSyntaxError := by
      rw [hq, hrec]
      simp only [loadFromDatabase, htitles]
    unfold runMigrate
    rw [hc]
    dsimp only
    rw [hl]
    dsimp only
    rw [if_neg (by decide : ¬(jsonSyntaxError.code = some enoent))]
  · intro saveErr store mp k mf e h1 h2 h3 h4
    rw [setMigrate_resolved saveErr store s dir (some t) mp h1,
      drain_fail dir _ k mf e h2 h3 h4]
    dsimp only [finishRun]
    simp
  · intro saveErr store ht hpos
    have hres : resolveTarget s dir (some t) = none := by
      simp only [resolveTarget]
      rw [if_neg ht, hpos]
      simp
    rw [setMigrate_unresolved saveErr store s dir (some t) hres]
    exact ⟨rfl, rfl⟩

/-- Witness for the amended C7: a failed connection surfaces as
`[load, error]`. -/
theorem fatal_conditions_surface_witness :
    (runMigrate wConnFail sOne Direction.up (some missingTitle)).events
      = [Event.load, Event.error connErrJs] :=
  (fatal_conditions_surface wConnFail sOne Direction.up missingTitle).1 connErrJs rfl

/-- Claim C8: `load()` against a store containing no prior record succeeds
(it is not an error) and returns the default state with an empty title list
and position `0`. -/
theorem load_fresh_default :
    loadFromDatabase none emptyStore.record = Except.ok ([], 0) := rfl

/-- Claim C9: every `_migrate` run (up or down, with or without a target,
target resolved or not) preserves `0 ≤ position ≤ length(migrations)`
across the slice computation and position update. -/
theorem position_invariant (saveErr : Option JsError) (store : Store) (s : MSet)
    (dir : Direction) (target : Option Title)
    (h0 : 0 ≤ s.pos) (h1 : s.pos ≤ (s.migrations.length : Int)) :
    0 ≤ (setMigrate saveErr store s dir target).set.pos ∧
    (setMigrate saveErr store s dir target).set.pos
      ≤ ((setMigrate saveErr store s dir target).set.migrations.length : Int) := by
  rcases hres : resolveTarget s dir target with _ | mp
  · rw [setMigrate_unresolved saveErr store s dir target hres]
    exact ⟨h0, h1⟩
  · rw [setMigrate_resolved saveErr store s dir target mp hres, finishRun_set]
    have hb1 : jsSliceBound s.migrations.length s.pos = s.pos.toNat :=
      jsSliceBound_of_nonneg_le _ _ h0 h1
    cases dir with
    | up =>
      rw [computeSlice_up]
      dsimp only
      have hlen := jsSlice_length s.migrations s.pos (mp + 1)
      rw [hb1] at hlen
      have hm : min (jsSliceBound s.migrations.length (mp + 1)) s.migrations.length
          ≤ s.migrations.length := min_le_right _ _
      constructor <;> omega
    | down =>
      rw [computeSlice_down]
      dsimp only
      rw [List.length_reverse]
      have hlen := jsSlice_length s.migrations mp s.pos
      rw [hb1] at hlen
      have hm : min s.pos.toNat s.migrations.length ≤ s.pos.toNat := min_le_left _ _
      constructor <;> omega

/-- Witness for C9: the full-up run on `["001","002","003"]` from
position `0`. -/
theorem position_invariant_witness :
    0 ≤ (setMigrate none emptyStore s3 Direction.up none).set.pos ∧
    (setMigrate none emptyStore s3 Direction.up none).set.pos
      ≤ ((setMigrate none emptyStore s3 Direction.up none).set.migrations.length : Int) :=
  position_invariant none emptyStore s3 Direction.up none (by decide) (by decide)

/-- Claim C10: the in-memory position already holds its final post-run
value as computed from the slice alone — even when the migration at any
slice index `k` (including `k = 0`, before any migration has succeeded)
reports failure — and on such a failure `save()` is never invoked, so the
persisted state is unchanged. -/
theorem position_advanced_before_failure (saveErr : Option JsError) (store : Store)
    (s : MSet) (dir : Direction) (target : Option Title) (mp : Int) (k : Nat)
    (mf : Migration) (e : JsError)
    (hres : resolveTarget s dir target = some mp)
    (hmf : (computeSlice s dir mp).1[k]? = some mf)
    (hf : stepResult dir mf = some e)
    (hprev : ∀ m ∈ (computeSlice s dir mp).1.take k, stepResult dir m = none) :
    (setMigrate saveErr store s dir target).set.pos = (computeSlice s dir mp).2 ∧
    (setMigrate saveErr store s dir target).store = store ∧
    Event.save ∉ (setMigrate saveErr store s dir target).events := by
  have hdr := drain_fail dir _ k mf e hmf hf hprev
  rw [setMigrate_resolved saveErr store s dir target mp hres, hdr]
  refine ⟨?_, ?_, ?_⟩
  · rw [finishRun_set]
  · rfl
  · dsimp only [finishRun]
    intro hmem
    rcases List.mem_append.mp hmem with hm | hm
    · rcases List.mem_map.mp hm with ⟨x, _, hx⟩
      exact Event.noConfusion hx
    · rw [List.mem_singleton] at hm
      exact Event.noConfusion hm

/-- Witness for C10: middle migration of `["001","bad","003"]` fails going
up; the in-memory position is already `3`, the store is untouched and no
`save` event fires. -/
theorem position_advanced_before_failure_witness :
    (setMigrate none emptyStore sFail Direction.up none).set.pos
        = (computeSlice sFail Direction.up 3).2 ∧
      (setMigrate none emptyStore sFail Direction.up none).store = emptyStore ∧
      Event.save ∉ (setMigrate none emptyStore sFail Direction.up none).events :=
  position_advanced_before_failure none emptyStore sFail Direction.up none 3 1 mBad
    boomErr (by decide) (by decide) (by decide) (by decide)

end NodeMigrate
